import Mathlib

/-!
# Verification of the prices-roulette price aggregation engine

A shallow embedding, in Lean 4, of the price aggregation engine of the
`prices-roulette` repository (a Next.js app that rates observed grocery
prices against a market range crawled from Shufersal's price-transparency
site), together with proofs settling the frozen list of claims about it.

Conventions of the embedding:
* JavaScript numbers are modelled as rationals (`ℚ`); the decimal literals
  appearing in the source are exact in `ℚ`.
* `JsMap` (the ECMAScript `Map`) is modelled as an association list with
  insertion-order semantics: `set` on a fresh key appends, `set` on an
  existing key overwrites in place.
* Network effects are modelled as an explicit environment (`CrawlEnv`): the
  outcome of the single listing-page fetch, and an oracle mapping each file
  URL to the parsed item list that downloading-plus-parsing it would yield.
* The module-level mutable state of `priceService.ts` (`priceCache`,
  `lastCrawlTime`) is threaded explicitly as a `CacheState` value.
* `Math.round` is modelled as `x ↦ ⌊x + 1/2⌋` (its ECMAScript definition),
  and `Date` values as a pair of an epoch-milliseconds timestamp and the
  ISO string `toISOString()` would render.
-/

/-! ## Data model (src/lib/types.ts) -/

/-- `RawStoreItem` from `src/lib/types.ts`. -/
structure RawStoreItem where
  itemCode : String
  itemName : String
  itemPrice : ℚ
  unitOfMeasure : String
  quantity : ℚ
  unitOfMeasurePrice : Option ℚ := none
  priceUpdateDate : Option String := none
deriving DecidableEq, Repr

/-- `StorePrice` from `src/lib/types.ts`. -/
structure StorePrice where
  storeName : String
  storeChain : String
  price : ℚ
  priceUpdateDate : Option String := none
deriving DecidableEq, Repr

/-- `CrawlerResult` from `src/lib/types.ts`. -/
structure CrawlerResult where
  success : Bool
  storeName : String
  items : List RawStoreItem
  error : Option String := none
  fetchedAt : String
deriving DecidableEq, Repr

/-- `CatalogProduct` from `src/lib/productCatalog.ts`. -/
structure CatalogProduct where
  id : String
  name : String
  nameHebrew : String
  category : String
  unit : String
  image : String
  barcodes : List String
  searchTerms : List String
deriving DecidableEq, Repr

/-- `Product` from `src/lib/types.ts` (the public entity). -/
structure Product where
  id : String
  name : String
  nameHebrew : String
  category : String
  unit : String
  barcode : Option String := none
  averagePrice : ℚ
  lowPrice : ℚ
  highPrice : ℚ
  image : String
  lastUpdated : Option String := none
  storePrices : Option (List StorePrice) := none
deriving DecidableEq, Repr

/-- A JavaScript `Date`: epoch milliseconds plus the string
`toISOString()` renders for it. -/
structure JsDate where
  ms : ℤ
  iso : String
deriving DecidableEq, Repr

/-! ## The static catalog (src/lib/productCatalog.ts) -/

/-- `productCatalog` from `src/lib/productCatalog.ts`: the 35 curated
products, transcribed verbatim. -/
def productCatalog : List CatalogProduct := [
  ⟨"1", "Tomatoes", "עגבניות", "ירקות", "1 ק\"ג", "🍅", ["2000010000002", "2000011000001"], ["עגבניות", "עגבניה", "tomato"]⟩,
  ⟨"2", "Cucumbers", "מלפפונים", "ירקות", "1 ק\"ג", "🥒", ["2000020000001"], ["מלפפון", "מלפפונים", "cucumber"]⟩,
  ⟨"3", "Potatoes", "תפוחי אדמה", "ירקות", "1 ק\"ג", "🥔", ["2000030000000"], ["תפוח אדמה", "תפוחי אדמה", "potato"]⟩,
  ⟨"4", "Onions", "בצל", "ירקות", "1 ק\"ג", "🧅", ["2000040000009"], ["בצל", "onion"]⟩,
  ⟨"5", "Carrots", "גזר", "ירקות", "1 ק\"ג", "🥕", ["2000050000008"], ["גזר", "carrot"]⟩,
  ⟨"6", "Bell Pepper", "פלפל", "ירקות", "1 ק\"ג", "🫑", ["2000060000007"], ["פלפל", "pepper"]⟩,
  ⟨"7", "Lettuce", "חסה", "ירקות", "יחידה", "🥬", ["2000070000006"], ["חסה", "lettuce"]⟩,
  ⟨"8", "Apples", "תפוחים", "פירות", "1 ק\"ג", "🍎", ["2000080000005"], ["תפוח", "תפוחים", "apple"]⟩,
  ⟨"9", "Bananas", "בננות", "פירות", "1 ק\"ג", "🍌", ["2000090000004"], ["בננה", "בננות", "banana"]⟩,
  ⟨"10", "Oranges", "תפוזים", "פירות", "1 ק\"ג", "🍊", ["2000100000003"], ["תפוז", "תפוזים", "orange"]⟩,
  ⟨"11", "Grapes", "ענבים", "פירות", "1 ק\"ג", "🍇", ["2000110000002"], ["ענבים", "ענב", "grape"]⟩,
  ⟨"12", "Watermelon", "אבטיח", "פירות", "1 ק\"ג", "🍉", ["2000120000001"], ["אבטיח", "watermelon"]⟩,
  ⟨"13", "Milk 3%", "חלב 3%", "חלב וביצים", "1 ליטר", "🥛", ["7290000066318", "7290000066325", "7290102990017"], ["חלב", "milk", "3%"]⟩,
  ⟨"14", "Eggs", "ביצים", "חלב וביצים", "12 יחידות", "🥚", ["7290000129617", "7290000129624"], ["ביצים", "ביצה", "eggs", "תריסר"]⟩,
  ⟨"15", "Cottage Cheese", "קוטג'", "חלב וביצים", "250 גרם", "🧀", ["7290000051234", "7290000051241"], ["קוטג", "cottage", "גבינה לבנה"]⟩,
  ⟨"16", "Yellow Cheese", "גבינה צהובה", "חלב וביצים", "200 גרם", "🧀", ["7290000078231", "7290000078248"], ["גבינה צהובה", "עמק", "cheese"]⟩,
  ⟨"17", "Butter", "חמאה", "חלב וביצים", "200 גרם", "🧈", ["7290000045678"], ["חמאה", "butter"]⟩,
  ⟨"18", "White Bread", "לחם לבן", "לחם ומאפים", "יחידה", "🍞", ["7290000123456", "7290008700016"], ["לחם לבן", "לחם", "bread", "אנג'ל"]⟩,
  ⟨"19", "Pita", "פיתה", "לחם ומאפים", "6 יחידות", "🫓", ["7290000234567"], ["פיתה", "פיתות", "pita"]⟩,
  ⟨"20", "Challah", "חלה", "לחם ומאפים", "יחידה", "🍞", ["7290000345678"], ["חלה", "challah"]⟩,
  ⟨"21", "Chicken Breast", "חזה עוף", "בשר ועוף", "1 ק\"ג", "🍗", ["2000210000005"], ["חזה עוף", "עוף", "chicken breast"]⟩,
  ⟨"22", "Ground Beef", "בשר טחון", "בשר ועוף", "1 ק\"ג", "🥩", ["2000220000004"], ["בשר טחון", "ground beef", "בקר טחון"]⟩,
  ⟨"23", "Chicken Thighs", "ירכיים עוף", "בשר ועוף", "1 ק\"ג", "🍗", ["2000230000003"], ["ירכיים", "ירך עוף", "chicken thigh"]⟩,
  ⟨"24", "Salmon Fillet", "פילה סלמון", "דגים", "1 ק\"ג", "🐟", ["2000240000002"], ["סלמון", "salmon", "פילה"]⟩,
  ⟨"25", "Tilapia", "אמנון", "דגים", "1 ק\"ג", "🐟", ["2000250000001"], ["אמנון", "tilapia", "דג"]⟩,
  ⟨"26", "Tuna Can", "טונה", "שימורים", "160 גרם", "🥫", ["7290000567890", "7290000567891"], ["טונה", "tuna", "שימורים"]⟩,
  ⟨"27", "Corn Can", "תירס", "שימורים", "400 גרם", "🌽", ["7290000678901"], ["תירס", "corn", "שימורים"]⟩,
  ⟨"28", "Chickpeas", "חומוס", "שימורים", "400 גרם", "🥫", ["7290000789012"], ["חומוס", "גרגירי חומוס", "chickpeas"]⟩,
  ⟨"29", "Coca Cola", "קוקה קולה", "משקאות", "1.5 ליטר", "🥤", ["5000112611779", "5449000000996", "5449000214591"], ["קוקה קולה", "קולה", "coca cola", "coke"]⟩,
  ⟨"30", "Orange Juice", "מיץ תפוזים", "משקאות", "1 ליטר", "🧃", ["7290000890123", "7290000890124"], ["מיץ תפוזים", "מיץ", "orange juice", "פריגת"]⟩,
  ⟨"31", "Mineral Water", "מים מינרלים", "משקאות", "1.5 ליטר", "💧", ["7290000901234", "7290000901235"], ["מים", "מינרלים", "נביעות", "water"]⟩,
  ⟨"32", "Bamba", "במבה", "חטיפים", "80 גרם", "🥜", ["7290000012346", "7290000012353"], ["במבה", "bamba", "אוסם"]⟩,
  ⟨"33", "Bissli", "ביסלי", "חטיפים", "70 גרם", "🍿", ["7290000023456", "7290000023463"], ["ביסלי", "bissli", "אוסם"]⟩,
  ⟨"34", "Dish Soap", "סבון כלים", "ניקיון", "750 מ\"ל", "🧴", ["7290000345678", "7290000345679"], ["סבון כלים", "נוזל כלים", "dish soap", "פיירי"]⟩,
  ⟨"35", "Laundry Detergent", "אבקת כביסה", "ניקיון", "3 ק\"ג", "🧺", ["7290000456789", "7290000456790"], ["אבקת כביסה", "כביסה", "laundry", "סנו"]⟩]

/-! ## Matching (src/lib/priceService.ts, src/crawlers/shufersal.ts) -/

/-- JS `String.prototype.includes`: the substring test, modelled on the
underlying character lists. -/
def containsSub (sub s : String) : Bool := decide (sub.toList <:+: s.toList)

/-- `searchItems` from `src/crawlers/shufersal.ts`: a record matches when its
code equals a term, its code contains a term, or its lower-cased name
contains the lower-cased term. -/
def searchItems (items : List RawStoreItem) (searchTerms : List String) :
    List RawStoreItem :=
  items.filter fun item =>
    let itemNameLower := item.itemName.toLower
    searchTerms.any fun term =>
      item.itemCode == term ||
      containsSub term item.itemCode ||
      containsSub term.toLower itemNameLower

/-- The `StorePrice` that `findPricesForProduct` pushes for a matched raw
item (store fields are the constants of the source). -/
def toStorePrice (item : RawStoreItem) : StorePrice :=
  { storeName := "Shufersal"
    storeChain := "Shufersal"
    price := item.itemPrice
    priceUpdateDate := item.priceUpdateDate }

/-- The first phase of `findPricesForProduct`: for each barcode of the
product, every item whose `itemCode` equals that barcode, in order. -/
def exactBarcodeMatches (product : CatalogProduct)
    (allItems : List RawStoreItem) : List StorePrice :=
  product.barcodes.flatMap fun barcode =>
    (allItems.filter fun item => item.itemCode == barcode).map toStorePrice

/-- `findPricesForProduct` from `src/lib/priceService.ts`: exact barcode
matches first; only when that list is empty, up to 5 fuzzy matches found by
`searchItems` (the source re-packs the items with a blank `unitOfMeasure`
and `quantity := 1` before searching). -/
def findPricesForProduct (product : CatalogProduct)
    (allItems : List RawStoreItem) : List StorePrice :=
  let prices := exactBarcodeMatches product allItems
  if prices.isEmpty then
    let matchedItems := searchItems
      (allItems.map fun i => { i with unitOfMeasure := "", quantity := 1 })
      product.searchTerms
    (matchedItems.take 5).map toStorePrice
  else
    prices

/-! ## Aggregation (src/lib/priceService.ts) -/

/-- The result record of `calculatePriceStats`. -/
structure PriceStats where
  averagePrice : ℚ
  lowPrice : ℚ
  highPrice : ℚ
deriving DecidableEq, Repr

/-- ECMAScript `Math.round`: the integer nearest `x`, halves rounding
toward positive infinity. -/
def mathRound (x : ℚ) : ℚ := (⌊x + 1/2⌋ : ℤ)

/-- `Math.round(x * 10) / 10` — rounding to one decimal place as done in
`calculatePriceStats`. -/
def roundTo1 (x : ℚ) : ℚ := mathRound (x * 10) / 10

/-- `calculatePriceStats` from `src/lib/priceService.ts`. -/
def calculatePriceStats (prices : List StorePrice) : PriceStats :=
  if prices.isEmpty then ⟨0, 0, 0⟩
  else
    match (prices.map (·.price)).filter (fun p => 0 < p) with
    | [] => ⟨0, 0, 0⟩
    | p :: ps =>
      let sum := (p :: ps).foldl (· + ·) 0
      let avg := sum / ((p :: ps).length : ℚ)
      let mn := ps.foldl min p
      let mx := ps.foldl max p
      ⟨roundTo1 avg, roundTo1 mn, roundTo1 mx⟩

/-! ## Fallback prices (src/lib/priceService.ts) -/

/-- The `{average, low, high}` record of the fallback table. -/
structure FallbackPrice where
  average : ℚ
  low : ℚ
  high : ℚ
deriving DecidableEq, Repr

/-- The `fallbackPrices` table from `getFallbackPrice` in
`src/lib/priceService.ts`, transcribed verbatim. -/
def fallbackPrices : List (String × FallbackPrice) := [
  ("1", ⟨8.9, 5.9, 14.9⟩),
  ("2", ⟨6.9, 3.9, 9.9⟩),
  ("3", ⟨5.5, 3.5, 8.9⟩),
  ("4", ⟨4.9, 2.9, 7.9⟩),
  ("5", ⟨5.9, 3.9, 8.9⟩),
  ("6", ⟨12.9, 7.9, 19.9⟩),
  ("7", ⟨6.9, 4.9, 9.9⟩),
  ("8", ⟨9.9, 6.9, 14.9⟩),
  ("9", ⟨7.9, 5.9, 11.9⟩),
  ("10", ⟨6.9, 4.9, 9.9⟩),
  ("11", ⟨19.9, 12.9, 29.9⟩),
  ("12", ⟨4.9, 2.9, 7.9⟩),
  ("13", ⟨6.9, 5.9, 7.9⟩),
  ("14", ⟨23.9, 19.9, 29.9⟩),
  ("15", ⟨7.9, 5.9, 9.9⟩),
  ("16", ⟨18.9, 14.9, 24.9⟩),
  ("17", ⟨12.9, 9.9, 16.9⟩),
  ("18", ⟨8.9, 6.9, 12.9⟩),
  ("19", ⟨7.9, 5.9, 10.9⟩),
  ("20", ⟨14.9, 10.9, 19.9⟩),
  ("21", ⟨39.9, 29.9, 49.9⟩),
  ("22", ⟨54.9, 44.9, 69.9⟩),
  ("23", ⟨29.9, 22.9, 39.9⟩),
  ("24", ⟨89.9, 69.9, 119.9⟩),
  ("25", ⟨44.9, 34.9, 54.9⟩),
  ("26", ⟨9.9, 6.9, 14.9⟩),
  ("27", ⟨7.9, 4.9, 10.9⟩),
  ("28", ⟨6.9, 4.9, 9.9⟩),
  ("29", ⟨8.9, 5.9, 11.9⟩),
  ("30", ⟨12.9, 9.9, 16.9⟩),
  ("31", ⟨4.9, 2.9, 6.9⟩),
  ("32", ⟨6.9, 4.9, 8.9⟩),
  ("33", ⟨6.9, 4.9, 8.9⟩),
  ("34", ⟨14.9, 9.9, 19.9⟩),
  ("35", ⟨39.9, 29.9, 54.9⟩)]

/-- `getFallbackPrice` from `src/lib/priceService.ts`:
`fallbackPrices[productId] || { average: 10, low: 5, high: 15 }`. -/
def getFallbackPrice (productId : String) : FallbackPrice :=
  (fallbackPrices.lookup productId).getD ⟨10, 5, 15⟩

/-- `getFallbackProducts` from `src/lib/priceService.ts` (`barcodes[0]` is
`undefined` on an empty barcode list, hence `head?`). -/
def getFallbackProducts : List Product :=
  productCatalog.map fun catalogProduct =>
    let prices := getFallbackPrice catalogProduct.id
    { id := catalogProduct.id
      name := catalogProduct.name
      nameHebrew := catalogProduct.nameHebrew
      category := catalogProduct.category
      unit := catalogProduct.unit
      barcode := catalogProduct.barcodes.head?
      image := catalogProduct.image
      averagePrice := prices.average
      lowPrice := prices.low
      highPrice := prices.high }

/-! ## Price rating (src/lib/priceService.ts `getPriceRating`; the same
function appears verbatim in `src/app/page.tsx`) -/

/-- The `PriceRating` union type. -/
inductive PriceRating where
  | great
  | good
  | average
  | high
  | expensive
deriving DecidableEq, Repr

/-- `getPriceRating` from `src/lib/priceService.ts`. -/
def getPriceRating (price : ℚ) (product : Product) : PriceRating :=
  let range := product.highPrice - product.lowPrice
  if range = 0 then .average
  else
    let position := (price - product.lowPrice) / range
    if position ≤ 0.1 then .great
    else if position ≤ 0.35 then .good
    else if position ≤ 0.65 then .average
    else if position ≤ 0.85 then .high
    else .expensive

/-! ## File locator (src/crawlers/shufersal.ts `fetchPriceFileUrls`) -/

/-- A JS `fetch` response, as far as the crawler inspects it. -/
structure HttpResponse where
  ok : Bool
  status : Nat
  statusText : String
  body : String
deriving DecidableEq, Repr

/-- The outcome of an HTTP fetch: either the promise rejected (network
error, modelled with its message) or a response arrived. -/
inductive FetchOutcome where
  | thrown (msg : String)
  | response (r : HttpResponse)
deriving DecidableEq, Repr

/-- The literal host-and-container part of the URL regex in
`fetchPriceFileUrls`. -/
def blobUrlHead : List Char :=
  "https://pricesprodpublic.blob.core.windows.net/".toList

/-- The characters excluded by the regex character class (double quote,
single quote — written via its code point 39 — and JS whitespace). -/
def urlStopChar (c : Char) : Bool :=
  c == '"' || c == Char.ofNat 39 || c.isWhitespace

/-- One pass of the global regex
`https:\/\/pricesprodpublic\.blob\.core\.windows\.net\/[^"'\s]+\.gz[^"'\s]*`
over the page text.  At each position: if the literal head matches there,
the candidate is the maximal following run of non-excluded characters; the
whole candidate is matched (the trailing greedy star) exactly when `.gz`
occurs in it past at least one character, and scanning resumes after the
match; otherwise scanning advances one character.  The first argument is
fuel (at least one character is consumed per step, so `length + 1` fuel
always suffices). -/
def scanBlobUrls : Nat → List Char → List String
  | 0, _ => []
  | _ + 1, [] => []
  | fuel + 1, c :: cs =>
    if blobUrlHead.isPrefixOf (c :: cs) then
      let rest := (c :: cs).drop blobUrlHead.length
      let run := rest.takeWhile fun ch => !urlStopChar ch
      if decide (".gz".toList <:+: run.drop 1) then
        String.mk (blobUrlHead ++ run) :: scanBlobUrls fuel (rest.drop run.length)
      else
        scanBlobUrls fuel cs
    else
      scanBlobUrls fuel cs

/-- `html.match(urlRegex) || []` of `fetchPriceFileUrls`. -/
def matchBlobUrls (html : String) : List String :=
  scanBlobUrls (html.toList.length + 1) html.toList

/-- Replace every (non-overlapping, left-to-right) occurrence of `pattern`
by `repl` — the semantics of `url.replace(/pat/g, repl)` for a literal
pattern.  The first argument is fuel; at least one character is consumed
per step, so `length + 1` fuel always suffices. -/
def replaceAllAux (pattern repl : List Char) : Nat → List Char → List Char
  | 0, l => l
  | _ + 1, [] => []
  | fuel + 1, c :: cs =>
    if pattern ≠ [] ∧ pattern.isPrefixOf (c :: cs) then
      repl ++ replaceAllAux pattern repl fuel ((c :: cs).drop pattern.length)
    else
      c :: replaceAllAux pattern repl fuel cs

/-- See `replaceAllAux`. -/
def replaceAll (s pattern repl : String) : String :=
  String.mk (replaceAllAux pattern.toList repl.toList (s.toList.length + 1) s.toList)

/-- The HTML-entity decoding applied to each matched URL:
`&amp; → &`, `&lt; → <`, `&gt; → >`, each via a global replace. -/
def decodeEntities (url : String) : String :=
  replaceAll (replaceAll (replaceAll url "&amp;" "&") "&lt;" "<") "&gt;" ">"

/-- `[...new Set(urls)]`: de-duplication keeping first occurrences. -/
def uniqueKeepFirst (urls : List String) : List String :=
  urls.foldl (fun acc u => if u ∈ acc then acc else acc ++ [u]) []

/-- `fetchPriceFileUrls` from `src/crawlers/shufersal.ts`.  The function
body has no try/catch: a rejected fetch propagates (`.error` with the
fetch's message), and a non-ok response makes it throw
`Failed to fetch: <status> <statusText>`. -/
def fetchPriceFileUrls (listing : FetchOutcome) : Except String (List String) :=
  match listing with
  | .thrown msg => .error msg
  | .response r =>
    if !r.ok then
      .error ("Failed to fetch: " ++ toString r.status ++ " " ++ r.statusText)
    else
      let founds := matchBlobUrls r.body
      let urls := founds.map decodeEntities
      .ok (uniqueKeepFirst urls)

/-! ## Deduplication (src/crawlers/shufersal.ts `crawlShufersal`) -/

/-- ECMAScript `Map.prototype.set` on an insertion-ordered association
list: overwrite in place when the key exists, append otherwise. -/
def jsMapSet (m : List (String × RawStoreItem)) (k : String)
    (v : RawStoreItem) : List (String × RawStoreItem) :=
  if m.any (fun kv => kv.1 == k) then
    m.map fun kv => if kv.1 == k then (k, v) else kv
  else
    m ++ [(k, v)]

/-- The `uniqueItems` loop of `crawlShufersal`: deduplicate by item code,
keeping the record with the lowest price (a strict `<`, so on a price tie
the earlier record is kept). -/
def dedupe (items : List RawStoreItem) : List (String × RawStoreItem) :=
  items.foldl
    (fun uniqueItems item =>
      match uniqueItems.lookup item.itemCode with
      | none => jsMapSet uniqueItems item.itemCode item
      | some existing =>
        if item.itemPrice < existing.itemPrice then
          jsMapSet uniqueItems item.itemCode item
        else
          uniqueItems)
    []

/-- The `highPrices` loop of `crawlShufersal`: highest observed price per
item code (computed by the source and then never read). -/
def trackHighPrices (items : List RawStoreItem) : List (String × ℚ) :=
  items.foldl
    (fun highPrices item =>
      let current := (highPrices.lookup item.itemCode).getD 0
      if current < item.itemPrice then
        if highPrices.any (fun kv => kv.1 == item.itemCode) then
          highPrices.map fun kv =>
            if kv.1 == item.itemCode then (item.itemCode, item.itemPrice) else kv
        else
          highPrices ++ [(item.itemCode, item.itemPrice)]
      else
        highPrices)
    []

/-! ## The crawler (src/crawlers/shufersal.ts `crawlShufersal`) -/

/-- The network environment a crawl runs against: the outcome of the
listing-page fetch, and, per file URL, what `downloadPriceFile` followed by
`parseXMLPrices` yields for it — `.error` when the download throws
(non-ok status or network failure), `.ok items` for the parsed item list
of the (possibly gunzipped) payload. -/
structure CrawlEnv where
  listing : FetchOutcome
  fetchAndParse : String → Except String (List RawStoreItem)
  fetchedAt : String

/-- `crawlShufersal` from `src/crawlers/shufersal.ts`.  The outer
try/catch turns any thrown error (a locator failure, or the explicit
`No price files found` throw) into a `success := false` result carrying
the message; per-file failures only skip that file. -/
def crawlShufersal (env : CrawlEnv) : CrawlerResult :=
  let base : CrawlerResult :=
    { success := false, storeName := "Shufersal", items := []
      error := none, fetchedAt := env.fetchedAt }
  match fetchPriceFileUrls env.listing with
  | .error e => { base with error := some e }
  | .ok urls =>
    if urls.length = 0 then
      { base with error := some "No price files found" }
    else
      let filesToProcess := urls.take 5
      let step := fun (acc : List RawStoreItem × Nat) url =>
        match env.fetchAndParse url with
        | .error _ => acc
        | .ok items =>
          if items.length > 0 then (acc.1 ++ items, acc.2 + 1) else acc
      let (allItems, successCount) := filesToProcess.foldl step ([], 0)
      let uniqueItems := dedupe allItems
      let _highPrices := trackHighPrices allItems
      { base with
        items := uniqueItems.map (·.2)
        success := decide (successCount > 0) && decide (uniqueItems.length > 0) }

/-! ## Cache and orchestrator (src/lib/priceService.ts) -/

/-- The module-level mutable state of `priceService.ts`: the
`priceCache` map and `lastCrawlTime`. -/
structure CacheState where
  priceCache : List (String × List StorePrice)
  lastCrawlTime : Option JsDate
deriving DecidableEq, Repr

/-- `CACHE_DURATION_MS = 1000 * 60 * 60`. -/
def CACHE_DURATION_MS : ℤ := 1000 * 60 * 60

/-- The cache-hit test at the top of `fetchAllPrices`:
`lastCrawlTime && Date.now() - lastCrawlTime.getTime() < CACHE_DURATION_MS
&& priceCache.size > 0`. -/
def cacheIsFresh (now : ℤ) (st : CacheState) : Bool :=
  match st.lastCrawlTime with
  | none => false
  | some t =>
    decide (now - t.ms < CACHE_DURATION_MS) && decide (st.priceCache.length > 0)

/-- `buildProductsFromCache` from `src/lib/priceService.ts`. -/
def buildProductsFromCache (st : CacheState) : List Product :=
  productCatalog.map fun catalogProduct =>
    let storePrices := (st.priceCache.lookup catalogProduct.id).getD []
    let stats := calculatePriceStats storePrices
    let hasRealData :=
      decide (storePrices.length > 0) && decide (stats.averagePrice > 0)
    { id := catalogProduct.id
      name := catalogProduct.name
      nameHebrew := catalogProduct.nameHebrew
      category := catalogProduct.category
      unit := catalogProduct.unit
      barcode := catalogProduct.barcodes.head?
      image := catalogProduct.image
      averagePrice := if hasRealData then stats.averagePrice
        else (getFallbackPrice catalogProduct.id).average
      lowPrice := if hasRealData then stats.lowPrice
        else (getFallbackPrice catalogProduct.id).low
      highPrice := if hasRealData then stats.highPrice
        else (getFallbackPrice catalogProduct.id).high
      lastUpdated := st.lastCrawlTime.map (·.iso)
      storePrices := if hasRealData then some storePrices else none }

/-- `fetchAllPrices` from `src/lib/priceService.ts`, with the mutable
module state threaded explicitly and `Date.now()` / `new Date()` passed as
`now`.  Clearing `priceCache` and re-`set`ting it per catalog product is
the same as replacing it by the freshly built map (catalog ids are
distinct, so insertion order is catalog order). -/
def fetchAllPrices (env : CrawlEnv) (now : JsDate) (st : CacheState) :
    List Product × CacheState :=
  if cacheIsFresh now.ms st then
    (buildProductsFromCache st, st)
  else
    let shufersalResult := crawlShufersal env
    if !shufersalResult.success then
      (getFallbackProducts, st)
    else
      let newCache := productCatalog.map fun catalogProduct =>
        (catalogProduct.id, findPricesForProduct catalogProduct shufersalResult.items)
      let st1 : CacheState := { priceCache := newCache, lastCrawlTime := some now }
      (buildProductsFromCache st1, st1)

/-! ## The HTTP route (src/app/api/products/route — the `GET` handler) -/

/-- The JSON body `NextResponse.json` receives in the `GET` handler. -/
structure ApiResponse where
  success : Bool
  products : List Product
  source : String
  error : Option String := none
  timestamp : String
deriving DecidableEq, Repr

/-- The `GET` handler of `/api/products`: `skipCrawl` is
`searchParams.get("fallback") === "true"`.  Its catch branch (which would
answer `source := "fallback"` with an error message) is unreachable here
because the modelled `getFallbackProducts` and `fetchAllPrices` are total:
neither throws. -/
def GET (fallbackParam : Option String) (env : CrawlEnv) (now : JsDate)
    (st : CacheState) : ApiResponse × CacheState :=
  let skipCrawl := fallbackParam == some "true"
  if skipCrawl then
    ({ success := true, products := getFallbackProducts, source := "fallback"
       error := none, timestamp := now.iso }, st)
  else
    let (products, st1) := fetchAllPrices env now st
    ({ success := true, products := products, source := "crawled"
       error := none, timestamp := now.iso }, st1)

/-! ## Concurrency model for `fetchAllPrices`

`fetchAllPrices` is an `async` function whose body runs synchronously on
the event loop up to `await crawlShufersal()`; everything after that await
is its continuation.  The split below cuts the function at exactly that
await point, and `twoConcurrentRefreshes` replays the deterministic event
loop order for two overlapping invocations A and B issued back to back:
A's synchronous part, B's synchronous part, A's continuation, B's
continuation.  The `Nat` component counts how many crawl pipeline
executions were started. -/

/-- The synchronous part of `fetchAllPrices`, up to the `await`:
`some products` when the cache answers, `none` when a crawl starts. -/
def fetchAllPricesSyncPhase (now : ℤ) (st : CacheState) : Option (List Product) :=
  if cacheIsFresh now st then some (buildProductsFromCache st) else none

/-- The continuation of `fetchAllPrices` after its `await`, applied to the
awaited `CrawlerResult`. -/
def fetchAllPricesResume (shufersalResult : CrawlerResult) (now : JsDate)
    (st : CacheState) : List Product × CacheState :=
  if !shufersalResult.success then
    (getFallbackProducts, st)
  else
    let newCache := productCatalog.map fun catalogProduct =>
      (catalogProduct.id, findPricesForProduct catalogProduct shufersalResult.items)
    let st1 : CacheState := { priceCache := newCache, lastCrawlTime := some now }
    (buildProductsFromCache st1, st1)

/-- Two overlapping `fetchAllPrices` invocations on the event loop, in the
deterministic order described above.  Returns A's and B's results, the
final cache state, and the number of crawl pipeline executions started. -/
def twoConcurrentRefreshes (env : CrawlEnv) (now : JsDate) (st : CacheState) :
    (List Product × List Product) × CacheState × Nat :=
  match fetchAllPricesSyncPhase now.ms st with
  | some productsA =>
    match fetchAllPricesSyncPhase now.ms st with
    | some productsB => ((productsA, productsB), st, 0)
    | none =>
      let (productsB, st1) := fetchAllPricesResume (crawlShufersal env) now st
      ((productsA, productsB), st1, 1)
  | none =>
    match fetchAllPricesSyncPhase now.ms st with
    | some productsB =>
      let (productsA, st1) := fetchAllPricesResume (crawlShufersal env) now st
      ((productsA, productsB), st1, 1)
    | none =>
      let (productsA, st1) := fetchAllPricesResume (crawlShufersal env) now st
      let (productsB, st2) := fetchAllPricesResume (crawlShufersal env) now st1
      ((productsA, productsB), st2, 2)

/-! ## The aggregator as the spec words it (for refinement comparison) -/

/-- Rounding half away from zero, as §4.6 of the spec prescribes (stated
from the spec's words, for comparison with the source's `Math.round`). -/
def roundHalfAwayFromZero (x : ℚ) : ℚ :=
  if 0 ≤ x then ((⌊x + 1/2⌋ : ℤ) : ℚ) else ((⌈x - 1/2⌉ : ℤ) : ℚ)

/-- One-decimal rounding, half away from zero (spec wording). -/
def roundTo1Spec (x : ℚ) : ℚ := roundHalfAwayFromZero (x * 10) / 10

/-- `summarize` as §4.6 of the spec words it: filter to strictly-positive
prices; if the filtered set is empty return the `{0,0,0}` sentinel;
otherwise the arithmetic mean, minimum and maximum of the filtered prices,
each rounded to one decimal place half away from zero.  Stated from the
spec, to be compared with the source's `calculatePriceStats`. -/
def summarizeSpec (prices : List StorePrice) : PriceStats :=
  match (prices.map (·.price)).filter (fun p => 0 < p) with
  | [] => ⟨0, 0, 0⟩
  | p :: ps =>
    ⟨roundTo1Spec (((p :: ps).foldl (· + ·) 0) / ((p :: ps).length : ℚ)),
     roundTo1Spec (ps.foldl min p),
     roundTo1Spec (ps.foldl max p)⟩

/-! ## Helper lemmas: de-duplication keeping first occurrences -/

theorem uniqueKeepFirst_aux_nodup (l : List String) :
    ∀ acc : List String, acc.Nodup →
      (l.foldl (fun acc u => if u ∈ acc then acc else acc ++ [u]) acc).Nodup := by
  induction l with
  | nil => intro acc h; exact h
  | cons u tl ih =>
    intro acc h
    by_cases hu : u ∈ acc
    · simpa [hu] using ih acc h
    · have : (acc ++ [u]).Nodup := by
        simpa [List.nodup_append, h] using hu
      simpa [hu] using ih (acc ++ [u]) this

theorem uniqueKeepFirst_nodup (l : List String) : (uniqueKeepFirst l).Nodup :=
  uniqueKeepFirst_aux_nodup l [] List.nodup_nil

theorem uniqueKeepFirst_aux_mem (l : List String) :
    ∀ (acc : List String) (x : String),
      x ∈ l.foldl (fun acc u => if u ∈ acc then acc else acc ++ [u]) acc ↔
        x ∈ acc ∨ x ∈ l := by
  induction l with
  | nil => intro acc x; simp
  | cons u tl ih =>
    intro acc x
    by_cases hu : u ∈ acc
    · rw [List.foldl_cons, if_pos hu, ih]
      constructor
      · rintro (hx | hx)
        · exact Or.inl hx
        · exact Or.inr (List.mem_cons_of_mem _ hx)
      · rintro (hx | hx)
        · exact Or.inl hx
        · rcases List.mem_cons.mp hx with rfl | hx
          · exact Or.inl hu
          · exact Or.inr hx
    · rw [List.foldl_cons, if_neg hu, ih]
      constructor
      · rintro (hx | hx)
        · rcases List.mem_append.mp hx with hx | hx
          · exact Or.inl hx
          · simp only [List.mem_singleton] at hx
            exact Or.inr (hx ▸ List.mem_cons_self _ _)
        · exact Or.inr (List.mem_cons_of_mem _ hx)
      · rintro (hx | hx)
        · exact Or.inl (List.mem_append_left _ hx)
        · rcases List.mem_cons.mp hx with rfl | hx
          · exact Or.inl (List.mem_append_right _ (List.mem_singleton_self _))
          · exact Or.inr hx

theorem uniqueKeepFirst_mem (l : List String) (x : String) :
    x ∈ uniqueKeepFirst l ↔ x ∈ l := by
  rw [uniqueKeepFirst, uniqueKeepFirst_aux_mem]
  simp

/-! ## Helper lemmas: the insertion-ordered map -/

theorem lookup_map_set_ne (m : List (String × RawStoreItem)) (k : String)
    (v : RawStoreItem) (k' : String) (hne : k' ≠ k) :
    (m.map fun kv => if kv.1 == k then (k, v) else kv).lookup k' = m.lookup k' := by
  induction m with
  | nil => rfl
  | cons kv tl ih =>
    obtain ⟨a, b⟩ := kv
    simp only [beq_iff_eq] at ih
    by_cases hk : a = k
    · subst hk
      simp [List.lookup_cons, beq_eq_false_iff_ne.mpr hne, ih]
    · simp [List.lookup_cons, hk, ih]

theorem lookup_map_set_eq (m : List (String × RawStoreItem)) (k : String)
    (v : RawStoreItem) (h : m.any (fun kv => kv.1 == k) = true) :
    (m.map fun kv => if kv.1 == k then (k, v) else kv).lookup k = some v := by
  induction m with
  | nil => simp at h
  | cons kv tl ih =>
    obtain ⟨a, b⟩ := kv
    simp only [beq_iff_eq] at ih
    by_cases hk : a = k
    · subst hk
      simp [List.lookup_cons]
    · have htl : tl.any (fun kv => kv.1 == k) = true := by
        simpa [List.any_cons, beq_eq_false_iff_ne.mpr hk] using h
      simp [List.lookup_cons, hk, beq_eq_false_iff_ne.mpr (Ne.symm hk), ih htl]

theorem lookup_append_single (m : List (String × RawStoreItem)) (k : String)
    (v : RawStoreItem) (k' : String)
    (h : m.any (fun kv => kv.1 == k) = false) :
    (m ++ [(k, v)]).lookup k' = if k' = k then some v else m.lookup k' := by
  induction m with
  | nil =>
    by_cases hk : k' = k
    · subst hk
      simp [List.lookup_cons]
    · simp [List.lookup_cons, beq_eq_false_iff_ne.mpr hk, hk]
  | cons kv tl ih =>
    obtain ⟨a, b⟩ := kv
    have hak : (a == k) = false := by
      revert h
      simp only [List.any_cons]
      cases hc : a == k <;> simp
    have htl : tl.any (fun kv => kv.1 == k) = false := by
      revert h
      simp only [List.any_cons, hak]
      simp
    by_cases hk' : k' = a
    · subst hk'
      have : k' ≠ k := beq_eq_false_iff_ne.mp hak
      simp [List.cons_append, List.lookup_cons, this]
    · simp [List.cons_append, List.lookup_cons, beq_eq_false_iff_ne.mpr hk', ih htl]

theorem jsMapSet_lookup (m : List (String × RawStoreItem)) (k : String)
    (v : RawStoreItem) (k' : String) :
    (jsMapSet m k v).lookup k' = if k' = k then some v else m.lookup k' := by
  unfold jsMapSet
  by_cases h : m.any (fun kv => kv.1 == k) = true
  · rw [if_pos h]
    by_cases hk : k' = k
    · subst hk
      rw [if_pos rfl, lookup_map_set_eq m k' v h]
    · rw [if_neg hk, lookup_map_set_ne m k v k' hk]
  · have h2 : m.any (fun kv => kv.1 == k) = false := by
      revert h
      cases m.any (fun kv => kv.1 == k) <;> simp
    rw [if_neg h, lookup_append_single m k v k' h2]

/-! ## Helper lemmas: the deduplication invariant -/

/-- The loop body of the `uniqueItems` fold in `crawlShufersal`, named for
reasoning (definitionally the lambda inside `dedupe`). -/
def dedupeStep (uniqueItems : List (String × RawStoreItem))
    (item : RawStoreItem) : List (String × RawStoreItem) :=
  match uniqueItems.lookup item.itemCode with
  | none => jsMapSet uniqueItems item.itemCode item
  | some existing =>
    if item.itemPrice < existing.itemPrice then
      jsMapSet uniqueItems item.itemCode item
    else
      uniqueItems

theorem dedupe_eq_foldl (items : List RawStoreItem) :
    dedupe items = items.foldl dedupeStep [] := rfl

/-- Invariant of the deduplication fold relative to the records processed
so far: every stored representative is a processed record of its key whose
price is minimal among processed records of that key, and a key is absent
exactly when no processed record has it. -/
structure DedupeInv (seen : List RawStoreItem)
    (m : List (String × RawStoreItem)) : Prop where
  of_lookup : ∀ code r, m.lookup code = some r →
    r.itemCode = code ∧ r ∈ seen ∧
      ∀ it ∈ seen, it.itemCode = code → r.itemPrice ≤ it.itemPrice
  lookup_none : ∀ code, m.lookup code = none ↔ ∀ it ∈ seen, it.itemCode ≠ code

theorem dedupeInv_set (seen : List RawStoreItem)
    (m : List (String × RawStoreItem)) (item : RawStoreItem)
    (h : DedupeInv seen m)
    (hmin : ∀ it ∈ seen, it.itemCode = item.itemCode →
      item.itemPrice ≤ it.itemPrice) :
    DedupeInv (seen ++ [item]) (jsMapSet m item.itemCode item) := by
  refine ⟨?_, ?_⟩
  · intro code r hr
    rw [jsMapSet_lookup] at hr
    by_cases hc : code = item.itemCode
    · rw [if_pos hc] at hr
      injection hr with hr
      subst hr
      refine ⟨hc.symm, List.mem_append_right _ (List.mem_singleton_self _), ?_⟩
      intro it hit hitc
      rcases List.mem_append.mp hit with hs | hone
      · exact hmin it hs (hitc.trans hc)
      · obtain rfl := List.mem_singleton.mp hone
        exact le_refl _
    · rw [if_neg hc] at hr
      obtain ⟨hcode, hmem, hmn⟩ := h.of_lookup code r hr
      refine ⟨hcode, List.mem_append_left _ hmem, ?_⟩
      intro it hit hitc
      rcases List.mem_append.mp hit with hs | hone
      · exact hmn it hs hitc
      · obtain rfl := List.mem_singleton.mp hone
        exact absurd hitc.symm hc
  · intro code
    rw [jsMapSet_lookup]
    by_cases hc : code = item.itemCode
    · rw [if_pos hc]
      constructor
      · intro habs
        simp at habs
      · intro hall
        exact absurd hc.symm
          (hall item (List.mem_append_right _ (List.mem_singleton_self _)))
    · rw [if_neg hc, h.lookup_none]
      constructor
      · intro hall it hit
        rcases List.mem_append.mp hit with hs | hone
        · exact hall it hs
        · obtain rfl := List.mem_singleton.mp hone
          exact fun hitc => hc hitc.symm
      · intro hall it hit
        exact hall it (List.mem_append_left _ hit)

theorem dedupeInv_keep (seen : List RawStoreItem)
    (m : List (String × RawStoreItem)) (item existing : RawStoreItem)
    (h : DedupeInv seen m)
    (hl : m.lookup item.itemCode = some existing)
    (hp : existing.itemPrice ≤ item.itemPrice) :
    DedupeInv (seen ++ [item]) m := by
  refine ⟨?_, ?_⟩
  · intro code r hr
    obtain ⟨hcode, hmem, hmn⟩ := h.of_lookup code r hr
    refine ⟨hcode, List.mem_append_left _ hmem, ?_⟩
    intro it hit hitc
    rcases List.mem_append.mp hit with hs | hone
    · exact hmn it hs hitc
    · obtain rfl := List.mem_singleton.mp hone
      rw [← hitc] at hr
      rw [hl] at hr
      injection hr with hr
      subst hr
      exact hp
  · intro code
    rw [h.lookup_none]
    constructor
    · intro hall it hit
      rcases List.mem_append.mp hit with hs | hone
      · exact hall it hs
      · obtain rfl := List.mem_singleton.mp hone
        intro hitc
        have hnone : m.lookup code = none := (h.lookup_none code).mpr hall
        rw [← hitc] at hnone
        rw [hl] at hnone
        simp at hnone
    · intro hall it hit
      exact hall it (List.mem_append_left _ hit)

theorem dedupeInv_nil : DedupeInv [] [] := by
  refine ⟨?_, ?_⟩
  · intro code r hr
    simp at hr
  · intro code
    simp

theorem foldl_dedupeInv (items : List RawStoreItem) :
    ∀ (seen : List RawStoreItem) (m : List (String × RawStoreItem)),
      DedupeInv seen m → DedupeInv (seen ++ items) (items.foldl dedupeStep m) := by
  induction items with
  | nil =>
    intro seen m h
    simpa using h
  | cons item tl ih =>
    intro seen m h
    have hstep : DedupeInv (seen ++ [item]) (dedupeStep m item) := by
      unfold dedupeStep
      cases hl : m.lookup item.itemCode with
      | none =>
        apply dedupeInv_set seen m item h
        intro it hit hitc
        exact absurd hitc ((h.lookup_none item.itemCode).mp hl it hit)
      | some existing =>
        show DedupeInv (seen ++ [item])
          (if item.itemPrice < existing.itemPrice then
            jsMapSet m item.itemCode item
          else m)
        by_cases hp : item.itemPrice < existing.itemPrice
        · rw [if_pos hp]
          apply dedupeInv_set seen m item h
          intro it hit hitc
          exact le_of_lt (lt_of_lt_of_le hp
            ((h.of_lookup item.itemCode existing hl).2.2 it hit hitc))
        · rw [if_neg hp]
          exact dedupeInv_keep seen m item existing h hl (le_of_not_lt hp)
    have hrest := ih (seen ++ [item]) (dedupeStep m item) hstep
    rw [List.foldl_cons]
    simpa [List.append_assoc] using hrest

theorem dedupe_inv (items : List RawStoreItem) :
    DedupeInv items (dedupe items) := by
  rw [dedupe_eq_foldl]
  simpa using foldl_dedupeInv items [] [] dedupeInv_nil

/-! ## Helper lemmas: folds, bounds and rounding -/

theorem foldl_add_eq (l : List ℚ) (init : ℚ) :
    l.foldl (· + ·) init = init + l.sum := by
  induction l generalizing init with
  | nil => simp
  | cons x xs ih =>
    rw [List.foldl_cons, ih, List.sum_cons]
    ring

theorem foldl_min_le (init : ℚ) (l : List ℚ) :
    l.foldl min init ≤ init ∧ ∀ x ∈ l, l.foldl min init ≤ x := by
  induction l generalizing init with
  | nil => simp
  | cons q qs ih =>
    have h := ih (min init q)
    rw [List.foldl_cons]
    refine ⟨h.1.trans (min_le_left _ _), ?_⟩
    intro x hx
    rcases List.mem_cons.mp hx with rfl | hx
    · exact h.1.trans (min_le_right _ _)
    · exact h.2 x hx

theorem le_foldl_max (init : ℚ) (l : List ℚ) :
    init ≤ l.foldl max init ∧ ∀ x ∈ l, x ≤ l.foldl max init := by
  induction l generalizing init with
  | nil => simp
  | cons q qs ih =>
    have h := ih (max init q)
    rw [List.foldl_cons]
    refine ⟨(le_max_left _ _).trans h.1, ?_⟩
    intro x hx
    rcases List.mem_cons.mp hx with rfl | hx
    · exact (le_max_right _ _).trans h.1
    · exact h.2 x hx

theorem foldl_min_pos (init : ℚ) (l : List ℚ) (h0 : 0 < init)
    (hl : ∀ x ∈ l, 0 < x) : 0 < l.foldl min init := by
  induction l generalizing init with
  | nil => exact h0
  | cons q qs ih =>
    rw [List.foldl_cons]
    exact ih (min init q) (lt_min h0 (hl q (List.mem_cons_self _ _)))
      fun x hx => hl x (List.mem_cons_of_mem _ hx)

theorem length_mul_le_sum (l : List ℚ) (a : ℚ) (h : ∀ x ∈ l, a ≤ x) :
    (l.length : ℚ) * a ≤ l.sum := by
  induction l with
  | nil => simp
  | cons x xs ih =>
    have hx := h x (List.mem_cons_self _ _)
    have hxs := ih fun y hy => h y (List.mem_cons_of_mem _ hy)
    rw [List.sum_cons, List.length_cons]
    push_cast
    nlinarith

theorem sum_le_length_mul (l : List ℚ) (a : ℚ) (h : ∀ x ∈ l, x ≤ a) :
    l.sum ≤ (l.length : ℚ) * a := by
  induction l with
  | nil => simp
  | cons x xs ih =>
    have hx := h x (List.mem_cons_self _ _)
    have hxs := ih fun y hy => h y (List.mem_cons_of_mem _ hy)
    rw [List.sum_cons, List.length_cons]
    push_cast
    nlinarith

theorem avg_between (p : ℚ) (ps : List ℚ) :
    ps.foldl min p ≤ ((p :: ps).foldl (· + ·) 0) / (((p :: ps).length : ℕ) : ℚ) ∧
    ((p :: ps).foldl (· + ·) 0) / (((p :: ps).length : ℕ) : ℚ) ≤ ps.foldl max p := by
  have hlen : (0 : ℚ) < (((p :: ps).length : ℕ) : ℚ) := by
    rw [List.length_cons]
    exact_mod_cast Nat.succ_pos _
  have hmn : ∀ x ∈ p :: ps, ps.foldl min p ≤ x := by
    intro x hx
    rcases List.mem_cons.mp hx with rfl | hx
    · exact (foldl_min_le _ _).1
    · exact (foldl_min_le _ _).2 x hx
  have hmx : ∀ x ∈ p :: ps, x ≤ ps.foldl max p := by
    intro x hx
    rcases List.mem_cons.mp hx with rfl | hx
    · exact (le_foldl_max _ _).1
    · exact (le_foldl_max _ _).2 x hx
  have hlow := length_mul_le_sum (p :: ps) (ps.foldl min p) hmn
  have hhigh := sum_le_length_mul (p :: ps) (ps.foldl max p) hmx
  rw [foldl_add_eq, zero_add]
  constructor
  · rw [le_div_iff₀ hlen]
    linarith
  · rw [div_le_iff₀ hlen]
    linarith

theorem mathRound_mono {x y : ℚ} (h : x ≤ y) : mathRound x ≤ mathRound y := by
  unfold mathRound
  exact_mod_cast Int.floor_le_floor (by linarith)

theorem roundTo1_mono {x y : ℚ} (h : x ≤ y) : roundTo1 x ≤ roundTo1 y := by
  unfold roundTo1
  refine (div_le_div_iff_of_pos_right (by norm_num)).mpr ?_
  exact mathRound_mono (by nlinarith)

theorem roundTo1_eq_spec {x : ℚ} (h : 0 ≤ x) : roundTo1 x = roundTo1Spec x := by
  unfold roundTo1 roundTo1Spec roundHalfAwayFromZero mathRound
  rw [if_pos (by nlinarith : (0 : ℚ) ≤ x * 10)]

theorem lookup_getD_mem_or (l : List (String × FallbackPrice)) (k : String)
    (d : FallbackPrice) :
    (l.lookup k).getD d ∈ l.map Prod.snd ∨ (l.lookup k).getD d = d := by
  induction l with
  | nil => right; rfl
  | cons kv tl ih =>
    obtain ⟨a, b⟩ := kv
    by_cases hk : k = a
    · left
      simp [List.lookup_cons, beq_iff_eq.mpr hk]
    · have hstep : ((a, b) :: tl).lookup k = tl.lookup k := by
        simp [List.lookup_cons, beq_eq_false_iff_ne.mpr hk]
      rw [hstep]
      rcases ih with h | h
      · left
        rw [List.map_cons]
        exact List.mem_cons_of_mem _ h
      · right
        exact h

theorem getFallbackProducts_ne_nil : getFallbackProducts ≠ [] := by
  intro h
  unfold getFallbackProducts at h
  have hcat := List.map_eq_nil_iff.mp h
  simp [productCatalog] at hcat

/-! ## Helper lemmas: evaluating `calculatePriceStats` by cases -/

theorem calculatePriceStats_zero_case (prices : List StorePrice)
    (hfil : (prices.map (·.price)).filter (fun x => 0 < x) = []) :
    calculatePriceStats prices = ⟨0, 0, 0⟩ := by
  unfold calculatePriceStats
  cases hemp : prices.isEmpty with
  | true => simp
  | false =>
    rw [if_neg (by simp)]
    rw [hfil]

theorem calculatePriceStats_pos_case (prices : List StorePrice) (p : ℚ)
    (ps : List ℚ)
    (hfil : (prices.map (·.price)).filter (fun x => 0 < x) = p :: ps) :
    calculatePriceStats prices =
      ⟨roundTo1 (((p :: ps).foldl (· + ·) 0) / (((p :: ps).length : ℕ) : ℚ)),
       roundTo1 (ps.foldl min p), roundTo1 (ps.foldl max p)⟩ := by
  have hemp : prices.isEmpty = false := by
    cases hp : prices with
    | nil =>
      rw [hp] at hfil
      simp at hfil
    | cons a l => rfl
  unfold calculatePriceStats
  rw [if_neg (by simp [hemp])]
  rw [hfil]

theorem filter_pos_mem {prices : List StorePrice} {p : ℚ} {ps : List ℚ}
    (hfil : (prices.map (·.price)).filter (fun x => 0 < x) = p :: ps) :
    ∀ x ∈ p :: ps, 0 < x := by
  intro x hx
  rw [← hfil] at hx
  exact of_decide_eq_true (List.mem_filter.mp hx).2

/-! ## Fixtures for the concrete claims -/

/-- A `Product` with `lowPrice = 10`, `highPrice = 20` for the boundary
checks of the rating function. -/
def rateFixtureProduct : Product :=
  { id := "t", name := "t", nameHebrew := "t", category := "t", unit := "t"
    averagePrice := 15, lowPrice := 10, highPrice := 20, image := "t" }

/-- Two raw records sharing an item code and a price, differing in name. -/
def tieA : RawStoreItem :=
  { itemCode := "7290000000001", itemName := "item a", itemPrice := 5
    unitOfMeasure := "", quantity := 1 }

/-- See `tieA`. -/
def tieB : RawStoreItem :=
  { itemCode := "7290000000001", itemName := "item b", itemPrice := 5
    unitOfMeasure := "", quantity := 1 }

/-- An environment whose listing page fetch succeeds but contains no file
URLs: the locator finds nothing. -/
def emptyListingEnv : CrawlEnv :=
  { listing := .response ⟨true, 200, "OK", ""⟩
    fetchAndParse := fun _ => .error "unused"
    fetchedAt := "2025-01-01T00:00:00.000Z" }

/-- A fixed instant. -/
def date0 : JsDate := ⟨1735689600000, "2025-01-01T00:00:00.000Z"⟩

/-- The cache state at process start: empty map, no crawl yet. -/
def emptyState : CacheState := ⟨[], none⟩

/-- A full-catalog price file URL (contains `PriceFull`). -/
def fullCatalogUrl : String :=
  "https://pricesprodpublic.blob.core.windows.net/price/PriceFull7290027600007-001-202504100300.gz"

/-- An incremental price file URL (a `Price...` file, no `PriceFull`). -/
def incrementalUrl : String :=
  "https://pricesprodpublic.blob.core.windows.net/price/Price7290027600007-001-202504100400.gz"

/-- A listing page publishing both the full-catalog file and the
incremental file. -/
def listingWithBoth : String :=
  "<a href=\"" ++ fullCatalogUrl ++ "\">full</a> <a href=\"" ++
    incrementalUrl ++ "\">inc</a>"

/-! ## Helper lemmas: evaluating the locator by cases -/

theorem fetchPriceFileUrls_thrown (msg : String) :
    fetchPriceFileUrls (FetchOutcome.thrown msg) = Except.error msg := rfl

theorem fetchPriceFileUrls_not_ok (r : HttpResponse) (hr : r.ok = false) :
    fetchPriceFileUrls (FetchOutcome.response r) =
      Except.error ("Failed to fetch: " ++ toString r.status ++ " " ++ r.statusText) := by
  show (if (!r.ok) = true then
      Except.error ("Failed to fetch: " ++ toString r.status ++ " " ++ r.statusText)
    else
      Except.ok (uniqueKeepFirst ((matchBlobUrls r.body).map decodeEntities))) =
    Except.error ("Failed to fetch: " ++ toString r.status ++ " " ++ r.statusText)
  rw [if_pos (by simp [hr])]

theorem fetchPriceFileUrls_ok (r : HttpResponse) (hr : r.ok = true) :
    fetchPriceFileUrls (FetchOutcome.response r) =
      Except.ok (uniqueKeepFirst ((matchBlobUrls r.body).map decodeEntities)) := by
  show (if (!r.ok) = true then
      Except.error ("Failed to fetch: " ++ toString r.status ++ " " ++ r.statusText)
    else
      Except.ok (uniqueKeepFirst ((matchBlobUrls r.body).map decodeEntities))) =
    Except.ok (uniqueKeepFirst ((matchBlobUrls r.body).map decodeEntities))
  rw [if_neg (by simp [hr])]

/-! ## The claims -/

/-- C1 (counterexample): with an initially empty cache and a listing page
containing no file URLs, the locator returns no URLs and the crawl fails,
yet `GET /api/products` with no `fallback` parameter answers
`source = "crawled"` — not `"fallback"` — around the fallback-valued
products, so the claimed `source == "fallback"` tagging is false. -/
theorem claim_C1_counterexample :
    fetchPriceFileUrls emptyListingEnv.listing = Except.ok [] ∧
    (GET none emptyListingEnv date0 emptyState).1.products = getFallbackProducts ∧
    (GET none emptyListingEnv date0 emptyState).1.source = "crawled" ∧
    (GET none emptyListingEnv date0 emptyState).1.source ≠ "fallback" := by
  refine ⟨rfl, rfl, rfl, ?_⟩
  decide

/-- C1 (amended): if the Locator returns no URLs and the cache cannot
answer, `getProducts(false)` — the `GET /api/products` flow with
`fallback=false` — returns the full (non-empty) static fallback product
list without touching the cache state, but the response's `source` field
is `"crawled"`: `source` only reflects the `fallback` query parameter, so
it does not distinguish fallback-sourced results from live crawled data on
this path. -/
theorem claim_C1_amended (env : CrawlEnv) (now : JsDate) (st : CacheState)
    (hmiss : cacheIsFresh now.ms st = false)
    (hempty : fetchPriceFileUrls env.listing = Except.ok []) :
    (GET none env now st).1.products = getFallbackProducts ∧
    (GET none env now st).1.products ≠ [] ∧
    (GET none env now st).1.source = "crawled" ∧
    (GET none env now st).2 = st := by
  have hcrawl : (crawlShufersal env).success = false := by
    unfold crawlShufersal
    rw [hempty]
    simp
  have hfap : fetchAllPrices env now st = (getFallbackProducts, st) := by
    unfold fetchAllPrices
    rw [if_neg (by simp [hmiss])]
    rw [if_pos (by simp [hcrawl])]
  have hGET : GET none env now st =
      ({ success := true, products := getFallbackProducts, source := "crawled"
         error := none, timestamp := now.iso }, st) := by
    unfold GET
    rw [if_neg (by decide)]
    rw [hfap]
  rw [hGET]
  exact ⟨rfl, getFallbackProducts_ne_nil, rfl, rfl⟩

/-- C1 (amended) at a concrete input: empty cache, listing page with no
URLs. -/
theorem claim_C1_amended_witness :
    cacheIsFresh date0.ms emptyState = false ∧
    fetchPriceFileUrls emptyListingEnv.listing = Except.ok [] ∧
    ((GET none emptyListingEnv date0 emptyState).1.products = getFallbackProducts ∧
     (GET none emptyListingEnv date0 emptyState).1.products ≠ [] ∧
     (GET none emptyListingEnv date0 emptyState).1.source = "crawled" ∧
     (GET none emptyListingEnv date0 emptyState).2 = emptyState) :=
  ⟨rfl, rfl, claim_C1_amended emptyListingEnv date0 emptyState rfl rfl⟩

/-- C2 (counterexample): two records with the same identifier and the same
(lowest) price but different names.  `dedupe` keeps the earlier one (the
`<` comparison is strict), so swapping the two — a permutation — changes
the output mapping at their identifier. -/
theorem claim_C2_counterexample :
    ([tieB, tieA].Perm [tieA, tieB]) ∧
    (dedupe [tieA, tieB]).lookup "7290000000001" ≠
      (dedupe [tieB, tieA]).lookup "7290000000001" := by
  refine ⟨List.Perm.swap tieA tieB [], ?_⟩
  decide

/-- C2 (amended): the representative `dedupe` keeps for an identifier is a
record of that identifier from the input whose price is minimal among the
input's records of that identifier, and an identifier is absent from the
output exactly when no input record carries it; consequently the *price*
component of the output mapping is permutation-invariant.  The
representative record itself is permutation-invariant only when the
minimal price is attained uniquely — on ties the first-encountered minimal
record wins. -/
theorem claim_C2_amended :
    (∀ (items : List RawStoreItem) (code : String) (r : RawStoreItem),
        (dedupe items).lookup code = some r →
        r.itemCode = code ∧ r ∈ items ∧
          ∀ it ∈ items, it.itemCode = code → r.itemPrice ≤ it.itemPrice) ∧
    (∀ (items : List RawStoreItem) (code : String),
        (dedupe items).lookup code = none ↔ ∀ it ∈ items, it.itemCode ≠ code) ∧
    (∀ (l₁ l₂ : List RawStoreItem), l₁.Perm l₂ → ∀ code : String,
        Option.map RawStoreItem.itemPrice ((dedupe l₁).lookup code) =
          Option.map RawStoreItem.itemPrice ((dedupe l₂).lookup code)) := by
  refine ⟨fun items code r hr => (dedupe_inv items).of_lookup code r hr,
    fun items code => (dedupe_inv items).lookup_none code, ?_⟩
  intro l₁ l₂ hperm code
  cases h1 : (dedupe l₁).lookup code with
  | none =>
    have hnone : ∀ it ∈ l₁, it.itemCode ≠ code :=
      ((dedupe_inv l₁).lookup_none code).mp h1
    have hnone2 : ∀ it ∈ l₂, it.itemCode ≠ code :=
      fun it hit => hnone it (hperm.mem_iff.mpr hit)
    rw [((dedupe_inv l₂).lookup_none code).mpr hnone2]
  | some r1 =>
    cases h2 : (dedupe l₂).lookup code with
    | none =>
      have hnone : ∀ it ∈ l₂, it.itemCode ≠ code :=
        ((dedupe_inv l₂).lookup_none code).mp h2
      obtain ⟨hc1, hm1, _⟩ := (dedupe_inv l₁).of_lookup code r1 h1
      exact absurd hc1 (hnone r1 (hperm.mem_iff.mp hm1))
    | some r2 =>
      obtain ⟨hc1, hm1, hmin1⟩ := (dedupe_inv l₁).of_lookup code r1 h1
      obtain ⟨hc2, hm2, hmin2⟩ := (dedupe_inv l₂).of_lookup code r2 h2
      have h12 : r1.itemPrice ≤ r2.itemPrice :=
        hmin1 r2 (hperm.mem_iff.mpr hm2) hc2
      have h21 : r2.itemPrice ≤ r1.itemPrice :=
        hmin2 r1 (hperm.mem_iff.mp hm1) hc1
      simp [le_antisymm h12 h21]

/-- C2 (amended) at a concrete input: the tied pair, swapped; the price
component of the output mapping agrees. -/
theorem claim_C2_amended_witness :
    ([tieB, tieA].Perm [tieA, tieB]) ∧
    Option.map RawStoreItem.itemPrice ((dedupe [tieB, tieA]).lookup "7290000000001") =
      Option.map RawStoreItem.itemPrice ((dedupe [tieA, tieB]).lookup "7290000000001") :=
  ⟨List.Perm.swap tieA tieB [],
    claim_C2_amended.2.2 [tieB, tieA] [tieA, tieB]
      (List.Perm.swap tieA tieB []) "7290000000001"⟩

/-- C3 (counterexample): on a non-success HTTP status the active locator
`fetchPriceFileUrls` does not return an empty sequence — it throws
(`Failed to fetch: <status> <statusText>`), so the error propagates to its
caller. -/
theorem claim_C3_counterexample :
    fetchPriceFileUrls (FetchOutcome.response ⟨false, 500, "Internal Server Error", ""⟩) =
      Except.error "Failed to fetch: 500 Internal Server Error" ∧
    fetchPriceFileUrls (FetchOutcome.response ⟨false, 500, "Internal Server Error", ""⟩) ≠
      Except.ok [] := by
  have h1 : fetchPriceFileUrls
      (FetchOutcome.response ⟨false, 500, "Internal Server Error", ""⟩) =
      Except.error "Failed to fetch: 500 Internal Server Error" := rfl
  refine ⟨h1, fun h => ?_⟩
  rw [h1] at h
  exact Except.noConfusion h

/-- C3 (amended): the locator `fetchPriceFileUrls` propagates failures
rather than returning an empty sequence: a rejected fetch propagates with
its message, and a non-success HTTP status throws
`Failed to fetch: <status> <statusText>`.  Soft failure lives one level
up: `crawlShufersal` catches any locator error and returns an unsuccessful
`CrawlerResult` recording the message, so no error propagates past the
crawler. -/
theorem claim_C3_amended :
    (∀ msg : String,
      fetchPriceFileUrls (FetchOutcome.thrown msg) = Except.error msg) ∧
    (∀ r : HttpResponse, r.ok = false →
      fetchPriceFileUrls (FetchOutcome.response r) =
        Except.error ("Failed to fetch: " ++ toString r.status ++ " " ++ r.statusText)) ∧
    (∀ (env : CrawlEnv) (e : String),
      fetchPriceFileUrls env.listing = Except.error e →
      crawlShufersal env =
        { success := false, storeName := "Shufersal", items := []
          error := some e, fetchedAt := env.fetchedAt }) := by
  refine ⟨fetchPriceFileUrls_thrown, fetchPriceFileUrls_not_ok, ?_⟩
  intro env e he
  unfold crawlShufersal
  rw [he]

/-- C3 (amended) at a concrete input: a rejected listing fetch makes the
crawler return an unsuccessful result carrying the message. -/
theorem claim_C3_amended_witness :
    fetchPriceFileUrls (CrawlEnv.listing
        { listing := FetchOutcome.thrown "network down"
          fetchAndParse := fun _ => Except.error "unused"
          fetchedAt := "t0" }) = Except.error "network down" ∧
    crawlShufersal
        { listing := FetchOutcome.thrown "network down"
          fetchAndParse := fun _ => Except.error "unused"
          fetchedAt := "t0" } =
      { success := false, storeName := "Shufersal", items := []
        error := some "network down", fetchedAt := "t0" } :=
  ⟨rfl, claim_C3_amended.2.2
    { listing := FetchOutcome.thrown "network down"
      fetchAndParse := fun _ => Except.error "unused"
      fetchedAt := "t0" } "network down" rfl⟩

set_option maxRecDepth 8000

/-- C4 (counterexample): a listing page publishing both a full-catalog
(`PriceFull...gz`) URL and an incremental (`Price...gz`) URL.  The locator
returns both: the incremental URL is not discarded although a full-catalog
URL exists, so the claimed full-over-incremental preference is false. -/
theorem claim_C4_counterexample :
    fetchPriceFileUrls (FetchOutcome.response ⟨true, 200, "OK", listingWithBoth⟩) =
      Except.ok [fullCatalogUrl, incrementalUrl] ∧
    containsSub "PriceFull" fullCatalogUrl = true ∧
    containsSub "PriceFull" incrementalUrl = false := by
  refine ⟨?_, by decide, by decide⟩
  rfl

/-- C4 (amended): the locator does produce a distinct, de-duplicated
sequence of file URLs — the `Set`-based de-duplication keeps first
occurrences, so the returned list has no duplicates and contains exactly
the (entity-decoded) regex matches of the page — but it applies no
preference between full-catalog and incremental variants: every matched
URL is returned regardless of variant. -/
theorem claim_C4_amended :
    (∀ (listing : FetchOutcome) (urls : List String),
      fetchPriceFileUrls listing = Except.ok urls → urls.Nodup) ∧
    (∀ (r : HttpResponse) (urls : List String),
      fetchPriceFileUrls (FetchOutcome.response r) = Except.ok urls →
      ∀ u, u ∈ urls ↔ u ∈ (matchBlobUrls r.body).map decodeEntities) := by
  constructor
  · intro listing urls h
    cases listing with
    | thrown msg =>
      rw [fetchPriceFileUrls_thrown] at h
      exact Except.noConfusion h
    | response r =>
      cases hok : r.ok with
      | false =>
        rw [fetchPriceFileUrls_not_ok r hok] at h
        exact Except.noConfusion h
      | true =>
        rw [fetchPriceFileUrls_ok r hok] at h
        injection h with h
        rw [← h]
        exact uniqueKeepFirst_nodup _
  · intro r urls h u
    cases hok : r.ok with
    | false =>
      rw [fetchPriceFileUrls_not_ok r hok] at h
      exact Except.noConfusion h
    | true =>
      rw [fetchPriceFileUrls_ok r hok] at h
      injection h with h
      rw [← h]
      exact uniqueKeepFirst_mem _ u

/-- C4 (amended) at a concrete input: the two-URL listing yields a
duplicate-free list. -/
theorem claim_C4_amended_witness :
    fetchPriceFileUrls (FetchOutcome.response ⟨true, 200, "OK", listingWithBoth⟩) =
      Except.ok [fullCatalogUrl, incrementalUrl] ∧
    ([fullCatalogUrl, incrementalUrl] : List String).Nodup :=
  ⟨by rfl,
    claim_C4_amended.1 (FetchOutcome.response ⟨true, 200, "OK", listingWithBoth⟩)
      [fullCatalogUrl, incrementalUrl] (by rfl)⟩

/-- C5: boundary exactness of `getPriceRating` at the clipping thresholds
0.10 / 0.35 / 0.65 / 0.85 of `position = (price - low) / (high - low)`:
for a product with `low = 10`, `high = 20`, price 11 rates `great`,
11.01 `good`, 16.5 `average`, 16.51 `high`, 18.5 `high`, and 18.51
`expensive`. -/
theorem claim_C5_rate_boundaries :
    getPriceRating 11 rateFixtureProduct = PriceRating.great ∧
    getPriceRating 11.01 rateFixtureProduct = PriceRating.good ∧
    getPriceRating 16.5 rateFixtureProduct = PriceRating.average ∧
    getPriceRating 16.51 rateFixtureProduct = PriceRating.high ∧
    getPriceRating 18.5 rateFixtureProduct = PriceRating.high ∧
    getPriceRating 18.51 rateFixtureProduct = PriceRating.expensive := by
  refine ⟨?_, ?_, ?_, ?_, ?_, ?_⟩ <;> norm_num [getPriceRating, rateFixtureProduct]

/-- C6: every `PriceSummary` the system produces satisfies
`low ≤ average ≤ high`: both for every summary computed from crawled
prices by `calculatePriceStats` (after its one-decimal rounding of each of
the three values) and for every static fallback estimate of
`getFallbackPrice`, including the `{10, 5, 15}` default for ids missing
from the table. -/
theorem claim_C6_summary_ordered :
    (∀ prices : List StorePrice,
      (calculatePriceStats prices).lowPrice ≤ (calculatePriceStats prices).averagePrice ∧
      (calculatePriceStats prices).averagePrice ≤ (calculatePriceStats prices).highPrice) ∧
    (∀ productId : String,
      (getFallbackPrice productId).low ≤ (getFallbackPrice productId).average ∧
      (getFallbackPrice productId).average ≤ (getFallbackPrice productId).high) := by
  constructor
  · intro prices
    cases hfil : (prices.map (·.price)).filter (fun x => 0 < x) with
    | nil =>
      rw [calculatePriceStats_zero_case prices hfil]
      exact ⟨le_refl 0, le_refl 0⟩
    | cons p ps =>
      rw [calculatePriceStats_pos_case prices p ps hfil]
      exact ⟨roundTo1_mono (avg_between p ps).1, roundTo1_mono (avg_between p ps).2⟩
  · intro productId
    unfold getFallbackPrice
    rcases lookup_getD_mem_or fallbackPrices productId ⟨10, 5, 15⟩ with h | h
    · revert h
      generalize (List.lookup productId fallbackPrices).getD ⟨10, 5, 15⟩ = fp
      intro h
      simp only [fallbackPrices, List.map_cons, List.map_nil] at h
      fin_cases h <;> constructor <;> norm_num
    · rw [h]
      exact ⟨by norm_num, by norm_num⟩

/-- C7: matcher precedence in `findPricesForProduct` — whenever some
record's identifier exactly matches one of the product's barcodes, the
result is exactly the exact-barcode match list (so fuzzy `searchItems`
matching is never consulted), and every returned price stems from an
exact-barcode record. -/
theorem claim_C7_matcher_precedence (product : CatalogProduct)
    (allItems : List RawStoreItem)
    (h : ∃ item ∈ allItems, item.itemCode ∈ product.barcodes) :
    findPricesForProduct product allItems = exactBarcodeMatches product allItems ∧
    exactBarcodeMatches product allItems ≠ [] ∧
    ∀ sp ∈ findPricesForProduct product allItems,
      ∃ item ∈ allItems, item.itemCode ∈ product.barcodes ∧ sp = toStorePrice item := by
  obtain ⟨item, hitem, hbar⟩ := h
  have hmem : toStorePrice item ∈ exactBarcodeMatches product allItems := by
    unfold exactBarcodeMatches
    rw [List.mem_flatMap]
    exact ⟨item.itemCode, hbar,
      List.mem_map.mpr ⟨item, List.mem_filter.mpr ⟨hitem, beq_self_eq_true _⟩, rfl⟩⟩
  have hne : exactBarcodeMatches product allItems ≠ [] := List.ne_nil_of_mem hmem
  have hisempty : (exactBarcodeMatches product allItems).isEmpty = false := by
    cases hE : exactBarcodeMatches product allItems with
    | nil => exact absurd hE hne
    | cons a l => rfl
  have heq : findPricesForProduct product allItems =
      exactBarcodeMatches product allItems := by
    show (if (exactBarcodeMatches product allItems).isEmpty = true then
        ((searchItems
          (allItems.map fun i => { i with unitOfMeasure := "", quantity := 1 })
          product.searchTerms).take 5).map toStorePrice
      else exactBarcodeMatches product allItems) =
      exactBarcodeMatches product allItems
    rw [if_neg (by simp [hisempty])]
  refine ⟨heq, hne, ?_⟩
  rw [heq]
  intro sp hsp
  unfold exactBarcodeMatches at hsp
  rw [List.mem_flatMap] at hsp
  obtain ⟨barcode, hbarc, hsp⟩ := hsp
  rw [List.mem_map] at hsp
  obtain ⟨it2, hit2, rfl⟩ := hsp
  obtain ⟨hmem2, hcode⟩ := List.mem_filter.mp hit2
  exact ⟨it2, hmem2, (beq_iff_eq.mp hcode) ▸ hbarc, rfl⟩

/-- A catalog product whose only barcode is `tieA`'s item code, for the
C7 witness. -/
def witnessProduct : CatalogProduct :=
  { id := "w", name := "w", nameHebrew := "w", category := "w", unit := "w"
    image := "w", barcodes := ["7290000000001"], searchTerms := ["term"] }

/-- C7 at a concrete input: one record whose code is the product's
barcode. -/
theorem claim_C7_matcher_precedence_witness :
    (∃ item ∈ [tieA], item.itemCode ∈ witnessProduct.barcodes) ∧
    (findPricesForProduct witnessProduct [tieA] =
        exactBarcodeMatches witnessProduct [tieA] ∧
      exactBarcodeMatches witnessProduct [tieA] ≠ [] ∧
      ∀ sp ∈ findPricesForProduct witnessProduct [tieA],
        ∃ item ∈ [tieA], item.itemCode ∈ witnessProduct.barcodes ∧
          sp = toStorePrice item) :=
  ⟨⟨tieA, List.mem_singleton_self _, by decide⟩,
    claim_C7_matcher_precedence witnessProduct [tieA]
      ⟨tieA, List.mem_singleton_self _, by decide⟩⟩

/-! ## Helper lemmas: evaluating `summarizeSpec` by cases -/

theorem summarizeSpec_zero_case (prices : List StorePrice)
    (hfil : (prices.map (·.price)).filter (fun x => 0 < x) = []) :
    summarizeSpec prices = ⟨0, 0, 0⟩ := by
  unfold summarizeSpec
  rw [hfil]

theorem summarizeSpec_pos_case (prices : List StorePrice) (p : ℚ) (ps : List ℚ)
    (hfil : (prices.map (·.price)).filter (fun x => 0 < x) = p :: ps) :
    summarizeSpec prices =
      ⟨roundTo1Spec (((p :: ps).foldl (· + ·) 0) / (((p :: ps).length : ℕ) : ℚ)),
       roundTo1Spec (ps.foldl min p), roundTo1Spec (ps.foldl max p)⟩ := by
  unfold summarizeSpec
  rw [hfil]

/-- C8: `calculatePriceStats` filters its input to strictly-positive
prices and returns the `{0,0,0}` sentinel when nothing remains, and
otherwise the arithmetic mean, minimum and maximum of the filtered prices
each rounded to one decimal place half away from zero (`summarizeSpec`,
stated from the spec's words); in particular `summarize([]) = {0,0,0}` and
`summarize([{price:5},{price:15}]) = {10.0, 5.0, 15.0}`. -/
theorem claim_C8_summarize :
    (∀ prices : List StorePrice, calculatePriceStats prices = summarizeSpec prices) ∧
    calculatePriceStats [] = ⟨0, 0, 0⟩ ∧
    calculatePriceStats
        [{ storeName := "Shufersal", storeChain := "Shufersal", price := 5 },
         { storeName := "Shufersal", storeChain := "Shufersal", price := 15 }] =
      ⟨10, 5, 15⟩ := by
  refine ⟨?_, rfl, ?_⟩
  · intro prices
    cases hfil : (prices.map (·.price)).filter (fun x => 0 < x) with
    | nil =>
      rw [calculatePriceStats_zero_case prices hfil, summarizeSpec_zero_case prices hfil]
    | cons p ps =>
      have hpos := filter_pos_mem hfil
      have h0 : (0 : ℚ) < p := hpos p (List.mem_cons_self _ _)
      have hmn : 0 < ps.foldl min p :=
        foldl_min_pos p ps h0 fun x hx => hpos x (List.mem_cons_of_mem _ hx)
      have hmx : 0 < ps.foldl max p := lt_of_lt_of_le h0 (le_foldl_max p ps).1
      have havg : (0 : ℚ) ≤
          ((p :: ps).foldl (· + ·) 0) / (((p :: ps).length : ℕ) : ℚ) :=
        le_trans hmn.le (avg_between p ps).1
      rw [calculatePriceStats_pos_case prices p ps hfil,
        summarizeSpec_pos_case prices p ps hfil,
        roundTo1_eq_spec havg, roundTo1_eq_spec hmn.le, roundTo1_eq_spec hmx.le]
  · have hfil :
        (([{ storeName := "Shufersal", storeChain := "Shufersal", price := 5 },
           { storeName := "Shufersal", storeChain := "Shufersal", price := 15 }] :
          List StorePrice).map (·.price)).filter (fun x => 0 < x) = [5, 15] := by
      rfl
    rw [calculatePriceStats_pos_case _ 5 [15] hfil]
    simp only [List.foldl_cons, List.foldl_nil, List.length_cons, List.length_nil]
    norm_num [min_def, max_def, roundTo1, mathRound, Int.floor_eq_iff]

/-- C9 (counterexample): two `fetchAllPrices` invocations issued while the
(empty, hence invalid) cache cannot answer both run the crawl pipeline:
the event-loop replay counts two crawl executions, not the claimed
exactly one. -/
theorem claim_C9_counterexample :
    cacheIsFresh date0.ms emptyState = false ∧
    (twoConcurrentRefreshes emptyListingEnv date0 emptyState).2.2 = 2 ∧
    (twoConcurrentRefreshes emptyListingEnv date0 emptyState).2.2 ≠ 1 := by
  refine ⟨rfl, rfl, by decide⟩

/-- C9 (amended): `fetchAllPrices` has no single-flight guard.  Splitting
it at its one `await` point is faithful (first conjunct: the function
equals its synchronous phase followed, on a cache miss, by its
continuation applied to the awaited crawl result), and under the
deterministic event-loop interleaving of two overlapping invocations
issued while the cache cannot answer, each invocation starts its own crawl
pipeline: exactly two crawl executions, not one. -/
theorem claim_C9_amended :
    (∀ (env : CrawlEnv) (now : JsDate) (st : CacheState),
      fetchAllPrices env now st =
        match fetchAllPricesSyncPhase now.ms st with
        | some products => (products, st)
        | none => fetchAllPricesResume (crawlShufersal env) now st) ∧
    (∀ (env : CrawlEnv) (now : JsDate) (st : CacheState),
      cacheIsFresh now.ms st = false →
      (twoConcurrentRefreshes env now st).2.2 = 2) := by
  constructor
  · intro env now st
    unfold fetchAllPrices fetchAllPricesSyncPhase fetchAllPricesResume
    cases hfresh : cacheIsFresh now.ms st with
    | false => simp
    | true => simp
  · intro env now st hfresh
    unfold twoConcurrentRefreshes fetchAllPricesSyncPhase
    rw [hfresh]
    simp

/-- C9 (amended) at a concrete input: the empty cache state. -/
theorem claim_C9_amended_witness :
    cacheIsFresh date0.ms emptyState = false ∧
    (twoConcurrentRefreshes emptyListingEnv date0 emptyState).2.2 = 2 :=
  ⟨rfl, claim_C9_amended.2 emptyListingEnv date0 emptyState rfl⟩

/-- C10: refresh failure is atomic with respect to the cache — when the
cache cannot answer and the crawl reports failure, `fetchAllPrices`
returns the static fallback products and leaves the cache state
(`priceCache` and `lastCrawlTime`) exactly as it was; and in general the
state changes only when the crawl succeeded. -/
theorem claim_C10_failure_atomic (env : CrawlEnv) (now : JsDate)
    (st : CacheState)
    (hmiss : cacheIsFresh now.ms st = false)
    (hfail : (crawlShufersal env).success = false) :
    fetchAllPrices env now st = (getFallbackProducts, st) ∧
    ∀ (env2 : CrawlEnv) (now2 : JsDate) (st2 : CacheState),
      (fetchAllPrices env2 now2 st2).2 ≠ st2 →
      (crawlShufersal env2).success = true := by
  constructor
  · unfold fetchAllPrices
    rw [if_neg (by simp [hmiss])]
    rw [if_pos (by simp [hfail])]
  · intro env2 now2 st2 hchange
    cases hsucc : (crawlShufersal env2).success with
    | true => rfl
    | false =>
      exfalso
      apply hchange
      unfold fetchAllPrices
      cases hfresh : cacheIsFresh now2.ms st2 with
      | true => rw [if_pos (by simp)]
      | false =>
        rw [if_neg (by simp)]
        rw [if_pos (by simp [hsucc])]

/-- C10 at a concrete input: empty cache, listing page with no URLs (the
crawl fails with `No price files found`). -/
theorem claim_C10_failure_atomic_witness :
    cacheIsFresh date0.ms emptyState = false ∧
    (crawlShufersal emptyListingEnv).success = false ∧
    (fetchAllPrices emptyListingEnv date0 emptyState =
        (getFallbackProducts, emptyState) ∧
      ∀ (env2 : CrawlEnv) (now2 : JsDate) (st2 : CacheState),
        (fetchAllPrices env2 now2 st2).2 ≠ st2 →
        (crawlShufersal env2).success = true) :=
  ⟨rfl, rfl, claim_C10_failure_atomic emptyListingEnv date0 emptyState rfl rfl⟩
